import Mathlib

/-!
Shallow embedding of the JSON document store of `app/database/connection.py`
(class `DatabaseConnection` over a TinyDB `items` table) and proofs of the
specification claims about it.

Modelling choices, each traceable to the source:
* A stored document (a Python dict) is an insertion-ordered association list
  `Doc` with string keys; `dset` is dict item assignment (replace in place or
  append), `dictUpdate` is Python's `dict.update` (the merge TinyDB's
  `table.update` performs on each matching document), `dget` is key lookup.
* The TinyDB `items` table is the list of its documents in doc-id order:
  `insert` appends, `update` maps the merge over matching documents in place,
  `remove` filters matching documents out, `all`/`search` read in order.
  Each of these table mutations writes the whole table through to the file
  (`JSONStorage.write` runs on every mutation), so the model updates the
  `disk` component at the mutation itself.
* The database is built as `TinyDB(path, storage=JSONStorage, indent=2)` —
  plain `JSONStorage`, no `CachingMiddleware`.  `JSONStorage` defines only
  `read`, `write` and `close`, so the call `self.db.storage.flush()` that
  ends the success path of `create_item`, `update_item` and `delete_item`
  raises `AttributeError`.  The model returns `Except.error attributeError`
  there: the table and file mutations made before that line stand, and the
  statements after it (`self._next_id += 1`, the `return` of the record /
  `True`) never execute.
* `datetime.now().isoformat()` is a read of an external clock: the state
  carries the stream of readings `times : Nat -> Nat` and the index `tix` of
  the next reading; every `now` consumes one reading.  `create_item` performs
  two separate `datetime.now()` calls, and so does the model.
* The singleton of `DatabaseConnection.__new__`/`_initialized` is a process
  state `Proc` holding the optional live instance; `get_db_connection` either
  returns it unchanged or initializes a fresh instance from the file.
-/

namespace DbJson

/-- A JSON scalar value stored in a document field. -/
inductive Val where
  | vNat : Nat → Val
  | vStr : String → Val
  | vNull : Val
deriving DecidableEq, Repr

/-- A document: a Python dict as an insertion-ordered association list. -/
abbrev Doc := List (String × Val)

/-- Dict lookup: `d[key]` / `d.get(key)`. -/
def dget : Doc → String → Option Val
  | [], _ => none
  | (k, v) :: rest, key => if k = key then some v else dget rest key

/-- Dict item assignment `d[key] = val`: replace in place if the key is
present, append at the end otherwise. -/
def dset : Doc → String → Val → Doc
  | [], key, val => [(key, val)]
  | (k, v) :: rest, key, val =>
      if k = key then (k, val) :: rest else (k, v) :: dset rest key val

/-- Python `dict.update`: assign every entry of `u` into `d` in order.  This
is the merge TinyDB's `table.update` applies to each matching document. -/
def dictUpdate (d : Doc) (u : Doc) : Doc :=
  u.foldl (fun acc kv => dset acc kv.1 kv.2) d

/-- The keys of a document. -/
def dkeys : Doc → List String
  | [] => []
  | (k, _) :: rest => k :: dkeys rest

/-- The id of a document, as `item.get('id', 0)` reads it: the value under
`"id"` when it is an integer, `0` otherwise. -/
def docId (d : Doc) : Nat :=
  match dget d "id" with
  | some (Val.vNat n) => n
  | _ => 0

/-- The test of the TinyDB query `Item.id == item_id` on one document: the
document has key `"id"` and its value equals the integer `i`. -/
def matchesId (i : Nat) (d : Doc) : Bool :=
  decide (dget d "id" = some (Val.vNat i))

/-- State of a live `DatabaseConnection`: the in-memory `items` table, the
`_next_id` counter, the persisted file contents, and the clock (stream of
future `datetime.now()` readings plus the index of the next one). -/
structure DB where
  items : List Doc
  nextId : Nat
  disk : List Doc
  times : Nat → Nat
  tix : Nat

/-- One `datetime.now()` call: return the next clock reading, advance. -/
def now (s : DB) : Nat × DB :=
  (s.times s.tix, { s with tix := s.tix + 1 })

/-- The exception a store call can raise: the `AttributeError` from
`self.db.storage.flush()`, since plain `JSONStorage` has no `flush`. -/
inductive PyExc where
  | attributeError
deriving DecidableEq, Repr

instance {ε α : Type} [DecidableEq ε] [DecidableEq α] :
    DecidableEq (Except ε α) := fun a b =>
  match a, b with
  | .error e1, .error e2 =>
    if h : e1 = e2 then .isTrue (by rw [h])
    else .isFalse (by intro hc; injection hc; contradiction)
  | .ok x, .ok y =>
    if h : x = y then .isTrue (by rw [h])
    else .isFalse (by intro hc; injection hc; contradiction)
  | .error _, .ok _ => .isFalse (by intro hc; exact Except.noConfusion hc)
  | .ok _, .error _ => .isFalse (by intro hc; exact Except.noConfusion hc)

/-- Embeds `DatabaseConnection._get_next_id`: `1` on an empty table,
`max(item.get('id', 0) for item in all_items) + 1` otherwise. -/
def getNextIdOf (items : List Doc) : Nat :=
  if items.isEmpty then 1 else (items.map docId).foldr max 0 + 1

/-- Embeds `DatabaseConnection.__init__` on first use: load the file into
memory and compute `_next_id` via `_get_next_id`, with a fresh clock. -/
def initDB (fileItems : List Doc) (times : Nat → Nat) : DB :=
  { items := fileItems, nextId := getNextIdOf fileItems, disk := fileItems,
    times := times, tix := 0 }

/-- The document `create_item` assembles and inserts: the caller's dict with
`id`, `created_at` and `updated_at` assigned (two separate `datetime.now()`
readings). -/
def createdDoc (s : DB) (item_data : Doc) : Doc :=
  dset (dset (dset item_data "id" (Val.vNat s.nextId))
    "created_at" (Val.vNat (s.times s.tix)))
    "updated_at" (Val.vNat (s.times (s.tix + 1)))

/-- Embeds `DatabaseConnection.create_item`: write `id`, `created_at` and
`updated_at` into the caller's dict (two separate `datetime.now()` calls) and
insert it — the insert itself persists the table.  The next line,
`self.db.storage.flush()`, raises `AttributeError`, so `self._next_id += 1`
never runs and no record is returned. -/
def create_item (s : DB) (item_data : Doc) : Except PyExc Doc × DB :=
  let d1 := dset item_data "id" (Val.vNat s.nextId)
  let p1 := now s
  let d2 := dset d1 "created_at" (Val.vNat p1.1)
  let p2 := now p1.2
  let d3 := dset d2 "updated_at" (Val.vNat p2.1)
  let newItems := p2.2.items ++ [d3]
  (Except.error PyExc.attributeError,
    { p2.2 with items := newItems, disk := newItems })

/-- Embeds `DatabaseConnection.get_item`: `search(Item.id == item_id)` in
table order, returning the first hit or `None`.  No flush is involved. -/
def get_item (s : DB) (i : Nat) : Option Doc :=
  (s.items.filter (matchesId i)).head?

/-- Embeds `DatabaseConnection.get_all_items`: `items_table.all()`. -/
def get_all_items (s : DB) : List Doc := s.items

/-- Embeds `DatabaseConnection.update_item`: on a missing id return `None`
(before the clock, the merge, or the flush line).  On a present id, set
`updated_at = now()` into the update dict and merge it over every matching
document — `table.update` persists this — and then raise `AttributeError`
at `self.db.storage.flush()`, so the re-fetched record is never returned. -/
def update_item (s : DB) (i : Nat) (update_data : Doc) :
    Except PyExc (Option Doc) × DB :=
  match get_item s i with
  | none => (Except.ok none, s)
  | some _ =>
    let p := now s
    let u := dset update_data "updated_at" (Val.vNat p.1)
    let newItems := p.2.items.map
      (fun d => if matchesId i d then dictUpdate d u else d)
    (Except.error PyExc.attributeError,
      { p.2 with items := newItems, disk := newItems })

/-- Embeds `DatabaseConnection.delete_item`: on a missing id return `False`
(before the removal or the flush line).  On a present id, remove every
matching document — `table.remove` persists this — and then raise
`AttributeError` at `self.db.storage.flush()`, so `True` is never
returned. -/
def delete_item (s : DB) (i : Nat) : Except PyExc Bool × DB :=
  match get_item s i with
  | none => (Except.ok false, s)
  | some _ =>
    let newItems := s.items.filter (fun d => ! matchesId i d)
    (Except.error PyExc.attributeError,
      { s with items := newItems, disk := newItems })

/-- Process-wide singleton state guarded by `DatabaseConnection.__new__` and
`_initialized`: the optional live instance. -/
structure Proc where
  inst : Option DB

/-- Embeds `get_db_connection` / `DatabaseConnection()`: return the live
instance if one exists (no re-initialization), otherwise initialize one from
the backing file and record it. -/
def get_db_connection (p : Proc) (fileItems : List Doc) (times : Nat → Nat) :
    DB × Proc :=
  match p.inst with
  | some db => (db, p)
  | none =>
    let db := initDB fileItems times
    (db, { inst := some db })

/-- One store call, as issued by the router layer.  An exception raised by
the call propagates to the caller, but the `DatabaseConnection` singleton
with its mutated state survives for the next call. -/
inductive Op where
  | opCreate (d : Doc)
  | opUpdate (i : Nat) (d : Doc)
  | opDelete (i : Nat)

/-- State transition of one call (its returned value or exception goes to
the caller; the store keeps the post-call state). -/
def applyOp (s : DB) : Op → DB
  | .opCreate d => (create_item s d).2
  | .opUpdate i d => (update_item s i d).2
  | .opDelete i => (delete_item s i).2

/-- Run a sequence of calls left to right. -/
def runOps (s : DB) : List Op → DB
  | [] => s
  | op :: rest => runOps (applyOp s op) rest

/-- Number of `create` calls in a call sequence. -/
def countCreates : List Op → Nat
  | [] => 0
  | .opCreate _ :: rest => countCreates rest + 1
  | .opUpdate _ _ :: rest => countCreates rest
  | .opDelete _ :: rest => countCreates rest

/-- A call that is a create, or an update whose partial map does not carry
the store-owned `created_at` key (the transport layer's update payloads
never do). -/
def createOrUpdateSafe : Op → Prop
  | .opCreate _ => True
  | .opUpdate _ d => "created_at" ∉ dkeys d
  | .opDelete _ => False

instance (op : Op) : Decidable (createOrUpdateSafe op) :=
  match op with
  | .opCreate _ => inferInstanceAs (Decidable True)
  | .opUpdate _ d => inferInstanceAs (Decidable ("created_at" ∉ dkeys d))
  | .opDelete _ => inferInstanceAs (Decidable False)

/-- A concrete clock whose consecutive readings differ. -/
def sampleClock : Nat → Nat := fun j => j

/-- A concrete store holding exactly one record, stored by a create (whose
flush line raised after the insert persisted). -/
def sampleDB : DB :=
  (create_item (initDB [] sampleClock) [("name", Val.vStr "A")]).2

/-- The record stored in `sampleDB`. -/
def sampleRec : Doc :=
  createdDoc (initDB [] sampleClock) [("name", Val.vStr "A")]

/-- The stored record of `sampleDB` after an update with price 5. -/
def sampleUpdatedRec : Doc :=
  [("name", Val.vStr "A"), ("id", Val.vNat 1), ("created_at", Val.vNat 0),
   ("updated_at", Val.vNat 2), ("price", Val.vNat 5)]

/-- File contents after two store runs, each creating one record: each run's
insert persists its record before the flush line raises, and each run
recomputes `_next_id` from the file on startup. -/
def diskTwoRecords : List Doc :=
  (create_item (initDB (create_item (initDB [] sampleClock) []).2.disk
    sampleClock) []).2.disk

/-- File contents after a further run deletes record 2: the removal persists
before the flush line raises. -/
def diskAfterDelete : List Doc :=
  (delete_item (initDB diskTwoRecords sampleClock) 2).2.disk

/-! ### Basic dictionary lemmas -/

theorem dget_dset_self (d : Doc) (k : String) (v : Val) :
    dget (dset d k v) k = some v := by
  induction d with
  | nil => simp [dset, dget]
  | cons kv rest ih =>
    by_cases h : kv.1 = k
    · simp [dset, h, dget]
    · simp [dset, h, dget, ih]

theorem dget_dset_ne (d : Doc) (k k' : String) (v : Val) (h : k ≠ k') :
    dget (dset d k v) k' = dget d k' := by
  induction d with
  | nil => simp [dset, dget, h]
  | cons kv rest ih =>
    by_cases hk : kv.1 = k
    · simp [dset, hk, dget, h]
    · simp [dset, hk, dget, ih]

theorem mem_dkeys_dset (d : Doc) (k k' : String) (v : Val)
    (h : k' ∈ dkeys (dset d k v)) : k' = k ∨ k' ∈ dkeys d := by
  induction d with
  | nil => simp [dset, dkeys] at h; simp [h]
  | cons kv rest ih =>
    obtain ⟨k0, v0⟩ := kv
    by_cases hk : k0 = k
    · subst hk
      simp [dset, dkeys] at h ⊢
      tauto
    · simp [dset, hk, dkeys] at h ⊢
      rcases h with h | h
      · tauto
      · rcases ih h with h | h <;> tauto

theorem not_mem_dkeys_dset_of_ne (u0 : Doc) (k kset : String) (v : Val)
    (hne : k ≠ kset) (h : k ∉ dkeys u0) : k ∉ dkeys (dset u0 kset v) := by
  intro hmem
  rcases mem_dkeys_dset _ _ _ _ hmem with hh | hh
  · exact hne hh
  · exact h hh

theorem dget_dictUpdate_not_mem (u : Doc) (d : Doc) (k : String)
    (h : k ∉ dkeys u) : dget (dictUpdate d u) k = dget d k := by
  induction u generalizing d with
  | nil => rfl
  | cons kv rest ih =>
    obtain ⟨k0, v0⟩ := kv
    simp [dkeys] at h
    have hne : k0 ≠ k := fun hc => h.1 hc.symm
    have hstep : dget (dictUpdate (dset d k0 v0) rest) k
        = dget (dset d k0 v0) k := ih (dset d k0 v0) h.2
    calc dget (dictUpdate d ((k0, v0) :: rest)) k
        = dget (dictUpdate (dset d k0 v0) rest) k := rfl
      _ = dget (dset d k0 v0) k := hstep
      _ = dget d k := dget_dset_ne d k0 k v0 hne

/-! ### List helper lemmas -/

theorem head?_filter_prop {α : Type} (p : α → Bool) (l : List α) (x : α)
    (h : (l.filter p).head? = some x) : p x = true := by
  induction l with
  | nil => simp [List.filter] at h
  | cons a as ih =>
    by_cases hpa : p a
    · rw [List.filter_cons_of_pos hpa] at h
      simp at h
      exact h ▸ hpa
    · rw [List.filter_cons_of_neg hpa] at h
      exact ih h

theorem filter_map_comm {α : Type} (p : α → Bool) (f : α → α) (l : List α)
    (h : ∀ x, p (f x) = p x) : (l.map f).filter p = (l.filter p).map f := by
  induction l with
  | nil => rfl
  | cons a as ih =>
    by_cases hpa : p a <;> simp [List.filter_cons, h, hpa, ih]

theorem map_map_congr {α β : Type} (f : α → α) (g : α → β) (l : List α)
    (h : ∀ x ∈ l, g (f x) = g x) : (l.map f).map g = l.map g := by
  induction l with
  | nil => rfl
  | cons a as ih =>
    show g (f a) :: (as.map f).map g = g a :: as.map g
    rw [h a (List.mem_cons_self a as),
      ih fun x hx => h x (List.mem_cons_of_mem a hx)]

theorem foldr_max_le (l : List Nat) (n : Nat) (h : ∀ m ∈ l, m ≤ n) :
    l.foldr max 0 ≤ n := by
  induction l with
  | nil => exact Nat.zero_le n
  | cons a as ih =>
    simp only [List.foldr_cons]
    exact Nat.max_le.mpr ⟨h a (List.mem_cons_self a as),
      ih fun m hm => h m (List.mem_cons_of_mem a hm)⟩

theorem foldr_max_eq (l : List Nat) (n : Nat) (hmem : n ∈ l)
    (hmax : ∀ m ∈ l, m ≤ n) : l.foldr max 0 = n := by
  induction l with
  | nil => cases hmem
  | cons a as ih =>
    simp only [List.foldr_cons]
    rcases List.mem_cons.mp hmem with rfl | hmem
    · have : as.foldr max 0 ≤ n :=
        foldr_max_le as n fun m hm => hmax m (List.mem_cons_of_mem n hm)
      exact Nat.max_eq_left this
    · rw [ih hmem fun m hm => hmax m (List.mem_cons_of_mem a hm)]
      exact Nat.max_eq_right (hmax a (List.mem_cons_self a as))

/-! ### Lemmas about `create_item` -/

theorem create_item_fst_eq (s : DB) (d : Doc) :
    (create_item s d).1 = Except.error PyExc.attributeError := rfl

theorem create_item_snd_eq (s : DB) (d : Doc) :
    (create_item s d).2
      = { items := s.items ++ [createdDoc s d],
          nextId := s.nextId,
          disk := s.items ++ [createdDoc s d],
          times := s.times, tix := s.tix + 2 } := rfl

theorem createdDoc_id (s : DB) (d : Doc) :
    dget (createdDoc s d) "id" = some (Val.vNat s.nextId) := by
  rw [createdDoc,
    dget_dset_ne _ _ _ _ (by decide),
    dget_dset_ne _ _ _ _ (by decide),
    dget_dset_self]

theorem createdDoc_created_at (s : DB) (d : Doc) :
    dget (createdDoc s d) "created_at"
      = some (Val.vNat (s.times s.tix)) := by
  rw [createdDoc,
    dget_dset_ne _ _ _ _ (by decide),
    dget_dset_self]

theorem createdDoc_updated_at (s : DB) (d : Doc) :
    dget (createdDoc s d) "updated_at"
      = some (Val.vNat (s.times (s.tix + 1))) := by
  rw [createdDoc, dget_dset_self]

theorem matchesId_iff (i : Nat) (d : Doc) :
    matchesId i d = true ↔ dget d "id" = some (Val.vNat i) := by
  simp [matchesId]

/-! ### Lemmas about `update_item` -/

theorem update_item_absent (s : DB) (i : Nat) (d : Doc)
    (h : get_item s i = none) : update_item s i d = (Except.ok none, s) := by
  simp [update_item, h]

theorem update_item_found_eq (s : DB) (i : Nat) (u0 : Doc) (r : Doc)
    (h : get_item s i = some r) :
    update_item s i u0
      = (Except.error PyExc.attributeError,
         { items := s.items.map (fun d => if matchesId i d
              then dictUpdate d
                (dset u0 "updated_at" (Val.vNat (s.times s.tix))) else d),
           nextId := s.nextId,
           disk := s.items.map (fun d => if matchesId i d
              then dictUpdate d
                (dset u0 "updated_at" (Val.vNat (s.times s.tix))) else d),
           times := s.times, tix := s.tix + 1 }) := by
  unfold update_item
  rw [h]
  rfl

theorem matchesId_dictUpdate (i : Nat) (d u : Doc) (hu : "id" ∉ dkeys u) :
    matchesId i (dictUpdate d u) = matchesId i d := by
  simp [matchesId, dget_dictUpdate_not_mem u d "id" hu]

theorem get_item_update_found (s : DB) (i : Nat) (u0 : Doc) (r : Doc)
    (h : get_item s i = some r) (hid : "id" ∉ dkeys u0) :
    get_item (update_item s i u0).2 i
      = some (dictUpdate r
          (dset u0 "updated_at" (Val.vNat (s.times s.tix)))) := by
  have hidu := not_mem_dkeys_dset_of_ne u0 "id" "updated_at"
    (Val.vNat (s.times s.tix)) (by decide) hid
  have hpres : ∀ d : Doc,
      matchesId i (if matchesId i d
        then dictUpdate d (dset u0 "updated_at" (Val.vNat (s.times s.tix)))
        else d) = matchesId i d := by
    intro d
    cases hd : matchesId i d with
    | false => simp [hd]
    | true => simp [hd, matchesId_dictUpdate i d _ hidu]
  have hr : matchesId i r = true := head?_filter_prop _ _ _ h
  rw [update_item_found_eq s i u0 r h]
  show ((s.items.map _).filter (matchesId i)).head? = _
  rw [filter_map_comm _ _ _ hpres, List.head?_map,
    show (s.items.filter (matchesId i)).head? = some r from h]
  simp [hr]

/-! ### Claim C1: next id after close and reopen -/

/-- C1 counterexample: a file built by two runs each creating one record
(ids 1 and 2 — `_next_id` is recomputed from the file at each startup), a
third run deleting record 2 (the removal persists before the flush line
raises), then a reopen.  The reopened store's next created record is stored
with id 2 — a previously deleted id is reused — and its `_next_id` is 2,
not N + 1 = 3, because `_get_next_id` recomputes the counter as
max(surviving ids) + 1. -/
theorem reopen_after_delete_reuses_id :
    diskTwoRecords.map docId = [1, 2] ∧
    diskAfterDelete.map docId = [1] ∧
    (initDB diskAfterDelete sampleClock).nextId = 2 ∧
    (create_item (initDB diskAfterDelete sampleClock) []).2.items.map docId
      = [1, 2] ∧
    ¬ (initDB diskAfterDelete sampleClock).nextId = 3 := by
  decide

/-- C1 (amended): reopening the store from a file computes the next id as
max(surviving ids) + 1.  It therefore equals N + 1 exactly when a record
with the maximal id N is still present at reopen; ids below the surviving
maximum are never reused, but the id of a deleted maximal record is. -/
theorem reopen_next_id_from_max (items : List Doc) (t : Nat → Nat) (n : Nat)
    (hmem : ∃ d ∈ items, docId d = n) (hmax : ∀ d ∈ items, docId d ≤ n) :
    (initDB items t).nextId = n + 1 := by
  obtain ⟨d, hd, rfl⟩ := hmem
  show getNextIdOf items = docId d + 1
  match items, hd with
  | a :: as, hd =>
    show (if (a :: as).isEmpty then 1
      else ((a :: as).map docId).foldr max 0 + 1) = docId d + 1
    rw [if_neg (by simp)]
    congr 1
    apply foldr_max_eq
    · exact List.mem_map_of_mem docId hd
    · intro m hm
      obtain ⟨d2, hd2, rfl⟩ := List.mem_map.mp hm
      exact hmax d2 hd2

theorem reopen_next_id_from_max_witness :
    ((∃ d ∈ [[("id", Val.vNat 2)], [("id", Val.vNat 1)]], docId d = 2) ∧
      (∀ d ∈ [[("id", Val.vNat 2)], [("id", Val.vNat 1)]], docId d ≤ 2)) ∧
    (initDB [[("id", Val.vNat 2)], [("id", Val.vNat 1)]]
      sampleClock).nextId = 2 + 1 :=
  ⟨⟨by decide, by decide⟩,
   reopen_next_id_from_max _ sampleClock 2 (by decide) (by decide)⟩

/-! ### Claim C2: ids returned by a sequence of creates -/

/-- C2 (code evaluated at the failing input): on an empty store the first
create inserts a record with id 1 but raises `AttributeError` at
`self.db.storage.flush()` before returning an id and before
`self._next_id += 1`, so no id is ever returned and a second create in the
same process stores a duplicate id-1 record — the claimed ids 1, 2, 3, …
are never produced.  The repository's own test
`test_create_multiple_items` asserts the returns and the increments. -/
theorem create_raises_and_repeats_ids :
    (create_item (initDB [] sampleClock) []).1
      = Except.error PyExc.attributeError ∧
    (create_item (initDB [] sampleClock) []).2.nextId = 1 ∧
    (create_item (create_item (initDB [] sampleClock) []).2
        []).2.items.map docId = [1, 1] := by
  decide

/-! ### Claim C3: what `create_item` returns -/

/-- C3 (code evaluated at the failing input): create on an empty store
assembles and stores the record — with `created_at` and `updated_at` taken
from two separate `datetime.now()` readings, 0 and 1 here, not one shared
timestamp — but raises `AttributeError` at `self.db.storage.flush()` and
never returns the stored record.  The repository's own test
`test_create_item` asserts the returned record. -/
theorem create_raises_before_returning :
    (create_item (initDB [] sampleClock) [("name", Val.vStr "W")]).1
      = Except.error PyExc.attributeError ∧
    (create_item (initDB [] sampleClock) [("name", Val.vStr "W")]).2.items
      = [[("name", Val.vStr "W"), ("id", Val.vNat 1),
          ("created_at", Val.vNat 0), ("updated_at", Val.vNat 1)]] := by
  decide

/-! ### Claim C4: partial update of `price` is a frame-preserving merge -/

/-- C4: for every record present under id `i`, the update with the
single-key map `{price: x}` merges exactly `price` and a fresh `updated_at`
into the stored record: afterwards the store holds that record with
`price = x`, `updated_at` = the fresh clock reading, and every other key —
in particular `name`, `description` and `created_at`, and every key omitted
from the partial map — unchanged (merge, not replace). -/
theorem update_price_frame (s : DB) (i : Nat) (x : Val) (r r' : Doc)
    (h : get_item s i = some r)
    (h' : get_item (update_item s i [("price", x)]).2 i = some r') :
    dget r' "price" = some x ∧
    dget r' "updated_at" = some (Val.vNat (s.times s.tix)) ∧
    ∀ k, k ≠ "price" → k ≠ "updated_at" → dget r' k = dget r k := by
  have hid : "id" ∉ dkeys [("price", x)] := by
    simp [dkeys]
  have hfst := get_item_update_found s i [("price", x)] r h hid
  rw [hfst] at h'
  obtain rfl : r' = dictUpdate r
      (dset [("price", x)] "updated_at" (Val.vNat (s.times s.tix))) :=
    (Option.some.inj h').symm
  refine ⟨?_, ?_, ?_⟩
  · show dget (dset (dset r "price" x) "updated_at"
      (Val.vNat (s.times s.tix))) "price" = some x
    rw [dget_dset_ne _ _ _ _ (by decide), dget_dset_self]
  · show dget (dset (dset r "price" x) "updated_at"
      (Val.vNat (s.times s.tix))) "updated_at" = _
    rw [dget_dset_self]
  · intro k hk1 hk2
    show dget (dset (dset r "price" x) "updated_at"
      (Val.vNat (s.times s.tix))) k = dget r k
    rw [dget_dset_ne _ _ _ _ (Ne.symm hk2), dget_dset_ne _ _ _ _ (Ne.symm hk1)]

theorem update_price_frame_witness :
    (get_item sampleDB 1 = some sampleRec ∧
      get_item (update_item sampleDB 1 [("price", Val.vNat 5)]).2 1
        = some sampleUpdatedRec) ∧
    (dget sampleUpdatedRec "price" = some (Val.vNat 5) ∧
      dget sampleUpdatedRec "updated_at" = some (Val.vNat 2) ∧
      ∀ k, k ≠ "price" → k ≠ "updated_at" →
        dget sampleUpdatedRec k = dget sampleRec k) :=
  ⟨⟨by decide, by decide⟩,
   update_price_frame sampleDB 1 (Val.vNat 5) sampleRec sampleUpdatedRec
     (by decide) (by decide)⟩

/-! ### Claim C5: `get_all_items` preserves insertion order -/

theorem runOps_created_column (ops : List Op) : ∀ (s : DB) (ts : List Nat),
    (∀ op ∈ ops, createOrUpdateSafe op) →
    StrictMono s.times →
    s.items.map (fun r => dget r "created_at")
      = ts.map (fun n => some (Val.vNat n)) →
    List.Pairwise (fun a b => a < b) ts →
    (∀ x ∈ ts, x < s.times s.tix) →
    ∃ ts2 : List Nat,
      (runOps s ops).items.map (fun r => dget r "created_at")
        = ts2.map (fun n => some (Val.vNat n)) ∧
      List.Pairwise (fun a b => a < b) ts2 ∧
      ts2.length = ts.length + countCreates ops := by
  induction ops with
  | nil =>
    intro s ts _ _ hcol hpw _
    exact ⟨ts, hcol, hpw, by simp [runOps, countCreates]⟩
  | cons op rest ih =>
    intro s ts hsafe hmono hcol hpw hbnd
    have hop := hsafe op (List.mem_cons_self op rest)
    have hrest := fun o ho => hsafe o (List.mem_cons_of_mem op ho)
    match op with
    | .opCreate d =>
      have hrun : runOps s (Op.opCreate d :: rest)
          = runOps (create_item s d).2 rest := rfl
      have hcol2 : (create_item s d).2.items.map
          (fun r => dget r "created_at")
          = (ts ++ [s.times s.tix]).map (fun n => some (Val.vNat n)) := by
        rw [create_item_snd_eq]
        show (s.items ++ [createdDoc s d]).map (fun r => dget r "created_at")
          = _
        rw [List.map_append, hcol, List.map_append,
          List.map_singleton, List.map_singleton, createdDoc_created_at]
      have hpw2 : List.Pairwise (fun a b => a < b) (ts ++ [s.times s.tix]) :=
        List.pairwise_append.mpr ⟨hpw, List.pairwise_singleton _ _,
          fun a ha b hb => by
            rw [List.mem_singleton.mp hb]
            exact hbnd a ha⟩
      have hbnd2 : ∀ x ∈ ts ++ [s.times s.tix],
          x < (create_item s d).2.times (create_item s d).2.tix := by
        rw [create_item_snd_eq]
        intro x hx
        show x < s.times (s.tix + 2)
        rcases List.mem_append.mp hx with hx | hx
        · exact lt_trans (hbnd x hx) (hmono (by omega))
        · rw [List.mem_singleton.mp hx]
          exact hmono (by omega)
      have hmono2 : StrictMono (create_item s d).2.times := by
        rw [create_item_snd_eq]; exact hmono
      obtain ⟨ts2, a, b, c⟩ := ih (create_item s d).2 (ts ++ [s.times s.tix])
        hrest hmono2 hcol2 hpw2 hbnd2
      refine ⟨ts2, by rw [hrun]; exact a, b, ?_⟩
      rw [c]
      simp only [countCreates, List.length_append, List.length_singleton]
      omega
    | .opUpdate i d =>
      have hca : "created_at" ∉ dkeys d := hop
      have hrun : runOps s (Op.opUpdate i d :: rest)
          = runOps (update_item s i d).2 rest := rfl
      cases hG : get_item s i with
      | none =>
        rw [hrun, update_item_absent s i d hG]
        exact ih s ts hrest hmono hcol hpw hbnd
      | some r =>
        have hcau := not_mem_dkeys_dset_of_ne d "created_at" "updated_at"
          (Val.vNat (s.times s.tix)) (by decide) hca
        have hpres : ∀ d2 ∈ s.items,
            dget (if matchesId i d2 then dictUpdate d2
              (dset d "updated_at" (Val.vNat (s.times s.tix)))
            else d2) "created_at" = dget d2 "created_at" := by
          intro d2 _
          cases hm : matchesId i d2 with
          | false => simp [hm]
          | true =>
            simp only [hm, if_true]
            exact dget_dictUpdate_not_mem _ d2 "created_at" hcau
        have hcol2 : (update_item s i d).2.items.map
            (fun r2 => dget r2 "created_at")
            = ts.map (fun n => some (Val.vNat n)) := by
          rw [update_item_found_eq s i d r hG]
          show (s.items.map _).map (fun r2 => dget r2 "created_at") = _
          rw [map_map_congr _ _ _ hpres, hcol]
        have hbnd2 : ∀ x ∈ ts,
            x < (update_item s i d).2.times (update_item s i d).2.tix := by
          rw [update_item_found_eq s i d r hG]
          intro x hx
          show x < s.times (s.tix + 1)
          exact lt_trans (hbnd x hx) (hmono (by omega))
        have hmono2 : StrictMono (update_item s i d).2.times := by
          rw [update_item_found_eq s i d r hG]; exact hmono
        obtain ⟨ts2, a, b, c⟩ := ih (update_item s i d).2 ts
          hrest hmono2 hcol2 hpw hbnd2
        exact ⟨ts2, by rw [hrun]; exact a, b, by rw [c]; rfl⟩
    | .opDelete i => exact absurd hop (by simp [createOrUpdateSafe])

/-- C5: for every sequence of create and update calls started on an empty
store (updates not touching the store-owned `created_at` key) under a
strictly increasing clock, `get_all_items` lists one record per create, in
creation order: the records' `created_at` stamps are exactly the creation
readings, strictly increasing along the list — creates append, updates
never reorder or restamp, and an empty store lists the empty sequence. -/
theorem list_insertion_order (t : Nat → Nat) (ht : StrictMono t)
    (ops : List Op) (hsafe : ∀ op ∈ ops, createOrUpdateSafe op) :
    ∃ ts : List Nat,
      (get_all_items (runOps (initDB [] t) ops)).map
          (fun r => dget r "created_at")
        = ts.map (fun n => some (Val.vNat n)) ∧
      List.Pairwise (fun a b => a < b) ts ∧
      ts.length = countCreates ops := by
  obtain ⟨ts2, a, b, c⟩ := runOps_created_column ops (initDB [] t) []
    hsafe ht rfl (List.Pairwise.nil) (fun x hx => by cases hx)
  exact ⟨ts2, a, b, by simpa using c⟩

theorem list_insertion_order_witness :
    (StrictMono sampleClock ∧
      (∀ op ∈ [Op.opCreate [("name", Val.vStr "A")],
          Op.opCreate [("name", Val.vStr "B")],
          Op.opUpdate 1 [("price", Val.vNat 5)]], createOrUpdateSafe op)) ∧
    (∃ ts : List Nat,
      (get_all_items (runOps (initDB [] sampleClock)
          [Op.opCreate [("name", Val.vStr "A")],
           Op.opCreate [("name", Val.vStr "B")],
           Op.opUpdate 1 [("price", Val.vNat 5)]])).map
          (fun r => dget r "created_at")
        = ts.map (fun n => some (Val.vNat n)) ∧
      List.Pairwise (fun a b => a < b) ts ∧
      ts.length = countCreates
          [Op.opCreate [("name", Val.vStr "A")],
           Op.opCreate [("name", Val.vStr "B")],
           Op.opUpdate 1 [("price", Val.vNat 5)]]) :=
  ⟨⟨by intro a b h; exact h, by decide⟩,
   list_insertion_order sampleClock (by intro a b h; exact h) _ (by decide)⟩

/-! ### Claim C6: what `delete_item` returns -/

/-- C6 (code evaluated at the failing input): deleting a present id removes
the record and persists the removal (so a later `get_item` is not-found,
and a second delete of the same id returns `False`), but the first delete
raises `AttributeError` at `self.db.storage.flush()` instead of returning
`True`.  Only the absent-id half of the claim holds; the repository's own
test `test_delete_item_exists` asserts the `True` return. -/
theorem delete_raises_instead_of_true :
    (delete_item sampleDB 1).1 = Except.error PyExc.attributeError ∧
    get_item (delete_item sampleDB 1).2 1 = none ∧
    (delete_item (delete_item sampleDB 1).2 1).1 = Except.ok false := by
  decide

/-! ### Claim C7: update of an absent id -/

/-- C7: for every id absent from the store and every partial field map,
`update_item` returns `None` (a plain value, not an exception — the flush
line is never reached on this branch), no record is created, and the
store's state is unchanged. -/
theorem update_absent_id_not_found (s : DB) (i : Nat) (d : Doc)
    (h : get_item s i = none) :
    update_item s i d = (Except.ok none, s) := by
  simp [update_item, h]

theorem update_absent_id_not_found_witness :
    get_item (initDB [] sampleClock) 7 = none ∧
    update_item (initDB [] sampleClock) 7 [("name", Val.vStr "x")]
      = (Except.ok none, initDB [] sampleClock) :=
  ⟨rfl, update_absent_id_not_found _ _ _ rfl⟩

/-! ### Claim C8: `get_item` after `create_item` -/

/-- C8 (code evaluated at the failing input): `create_item` stores the
record — `get_item` on the new id does return the stored document — but the
create itself raises `AttributeError` at `self.db.storage.flush()` and
returns no record, so there is never a created-record return value for the
subsequent get to equal.  The repository's own tests `test_create_item` and
`test_get_item_exists` assert that comparison. -/
theorem create_returns_no_record_for_get :
    (create_item (initDB [] sampleClock) [("name", Val.vStr "A")]).1
      = Except.error PyExc.attributeError ∧
    get_item (create_item (initDB [] sampleClock)
        [("name", Val.vStr "A")]).2 1 = some sampleRec := by
  decide

/-! ### Claim C9: opening the store is idempotent -/

/-- C9: opening the store is idempotent — a second `get_db_connection` call
against the store opened by a first call returns the same live instance and
leaves the process state (hence the records and the next-id counter)
unchanged, regardless of the file contents or clock supplied to the second
call. -/
theorem open_is_idempotent (p : Proc) (f1 f2 : List Doc) (t1 t2 : Nat → Nat) :
    get_db_connection (get_db_connection p f1 t1).2 f2 t2
      = get_db_connection p f1 t1 := by
  obtain ⟨inst⟩ := p
  cases inst <;> rfl

/-! ### Claim C10: update with the empty partial map -/

/-- C10: for every id present in the store, `update_item` with the empty
partial map is not a no-op on the store — it merges a fresh `updated_at`
into the stored record and persists (`table.update` writes through, so disk
equals memory afterwards), while leaving every other key of the record
(`name`, `description`, `price`, `created_at`, …) unchanged. -/
theorem update_empty_map_semantics (s : DB) (i : Nat) (r r' : Doc)
    (h : get_item s i = some r)
    (h' : get_item (update_item s i []).2 i = some r') :
    dget r' "updated_at" = some (Val.vNat (s.times s.tix)) ∧
    (∀ k, k ≠ "updated_at" → dget r' k = dget r k) ∧
    (update_item s i []).2.disk = (update_item s i []).2.items := by
  have hid : "id" ∉ dkeys ([] : Doc) := by
    simp [dkeys]
  have hfst := get_item_update_found s i [] r h hid
  rw [hfst] at h'
  obtain rfl : r' = dictUpdate r
      (dset [] "updated_at" (Val.vNat (s.times s.tix))) :=
    (Option.some.inj h').symm
  refine ⟨?_, ?_, ?_⟩
  · show dget (dset r "updated_at" (Val.vNat (s.times s.tix))) "updated_at"
      = _
    rw [dget_dset_self]
  · intro k hk
    show dget (dset r "updated_at" (Val.vNat (s.times s.tix))) k = dget r k
    rw [dget_dset_ne _ _ _ _ (Ne.symm hk)]
  · rw [update_item_found_eq s i [] r h]

theorem update_empty_map_semantics_witness :
    (get_item sampleDB 1 = some sampleRec ∧
      get_item (update_item sampleDB 1 []).2 1
        = some [("name", Val.vStr "A"), ("id", Val.vNat 1),
            ("created_at", Val.vNat 0), ("updated_at", Val.vNat 2)]) ∧
    (dget [("name", Val.vStr "A"), ("id", Val.vNat 1),
        ("created_at", Val.vNat 0), ("updated_at", Val.vNat 2)]
        "updated_at" = some (Val.vNat 2) ∧
      (∀ k, k ≠ "updated_at" →
        dget [("name", Val.vStr "A"), ("id", Val.vNat 1),
          ("created_at", Val.vNat 0), ("updated_at", Val.vNat 2)] k
          = dget sampleRec k) ∧
      (update_item sampleDB 1 []).2.disk
        = (update_item sampleDB 1 []).2.items) :=
  ⟨⟨by decide, by decide⟩,
   update_empty_map_semantics sampleDB 1 sampleRec _ (by decide) (by decide)⟩

end DbJson
